import Mathlib

/-!
# Verification of the chembot event-registration core

Shallow embedding of the registration / payment / capacity / rating logic of the
chembot Telegram bot (`database.py`, `handlers/user_events.py`,
`handlers/admin_events.py`, `handlers/admin_feedback.py`).

Modelling conventions:
* SQLite tables become Lean lists of record rows; SQLite `INTEGER` becomes `Int`,
  `TEXT` becomes `String`, nullable columns become `Option`.
* Each handler becomes a pure function from the database state (plus its message
  inputs) to a result tag, the new database state, and the relevant outputs;
  outbound chat messages are modelled only insofar as a claim mentions them.
* Python's `str.split("_")` (no maxsplit) is modelled by `pySplit` below,
  character by character, because the exact split behaviour of the callback
  tokens is load-bearing for the payment handler.
* Timestamps are abstract day counts (`Nat`); `datetime.now()` is an explicit
  `now` parameter and `timedelta(days = w)` is `w`.
-/

namespace Chembot

/-- Row of the `events` table (`database.py`, `SQL_SCHEMAS['events']`). -/
structure Event where
  eventId : Int
  title : String
  type : String
  date : String
  location : String
  capacity : Int
  currentCapacity : Int
  description : String
  isActive : Bool
  hashtag : String
  cost : Int
  cardNumber : String
  deactivationReason : Option String
  feedbackSentAt : Option Nat
  deriving Repr, DecidableEq

/-- Row of the `registrations` table: the (user, event) pair
(`registered_at` is irrelevant to every claim and omitted). -/
structure Registration where
  userId : Int
  eventId : Int
  deriving Repr, DecidableEq

/-- Row of the `payments` table (`confirmed_at` omitted, irrelevant to the claims). -/
structure PaymentRow where
  userId : Int
  eventId : Int
  amount : Int
  deriving Repr, DecidableEq

/-- Row of the `event_ratings` table. -/
structure RatingRow where
  userId : Int
  eventId : Int
  rating : Int
  submittedAt : Nat
  deriving Repr, DecidableEq

/-- The persistent store: the tables touched by the claims.  Users are modelled
by their ids (profile fields play no role in any claim beyond existence). -/
structure DB where
  users : List Int
  events : List Event
  registrations : List Registration
  payments : List PaymentRow
  ratings : List RatingRow
  deriving Repr, DecidableEq

/-- Model of `db.get_event_details(event_id)`: `SELECT * FROM events WHERE event_id = ?`,
first matching row or `None`. -/
def getEvent (db : DB) (eventId : Int) : Option Event :=
  db.events.find? (fun ev => ev.eventId == eventId)

/-- Model of `SELECT * FROM registrations WHERE user_id = ? AND event_id = ?` followed by
a truthiness test on `fetchone()`. -/
def isRegistered (db : DB) (userId eventId : Int) : Bool :=
  db.registrations.any (fun r => r.userId == userId && r.eventId == eventId)

/-- Model of `db.get_user_info(user_id)` truthiness: does a users row exist? -/
def userExists (db : DB) (userId : Int) : Bool :=
  db.users.contains userId

/-! ### Python's `str.split("_")`

`query.data.split("_")` with the default (no) maxsplit: every `'_'` is a
separator, adjacent separators produce empty chunks, `"".split("_") == [""]`. -/

/-- Split a character list at every `'_'` (Python `str.split("_")`): a `'_'`
opens a fresh empty chunk, any other character is prepended to the first chunk
of the remainder (which is never empty: the empty text splits to one empty
chunk). -/
def splitU : List Char → List (List Char)
  | [] => [[]]
  | c :: t =>
    let r := splitU t
    if c = '_' then [] :: r else (c :: r.headD []) :: r.tail

/-- Model of `data.split("_")` on strings. -/
def pySplit (s : String) : List String :=
  (splitU s.data).map (fun cs => String.mk cs)

/-- Read of `parts[i]` with a default (the handlers only index positions that the
guarding length checks make safe; the default stands for the unreachable case). -/
def getPart (parts : List String) (i : Nat) : String :=
  parts.getD i ""

/-- Decimal digit value of a character, if it is one. -/
def digitVal (c : Char) : Option Nat :=
  if '0' ≤ c ∧ c ≤ '9' then some (c.toNat - '0'.toNat) else none

/-- Parse a non-empty run of decimal digits. -/
def parseNatAux : List Char → Nat → Option Nat
  | [], acc => some acc
  | c :: t, acc =>
    match digitVal c with
    | some d => parseNatAux t (acc * 10 + d)
    | none => none

def parseNat : List Char → Option Nat
  | [] => none
  | cs => parseNatAux cs 0

/-- Python's `int(s)` on the callback-token chunks: an optional sign followed
by decimal digits, `None` (a raised `ValueError`, caught by the handlers'
`except`) otherwise.  (The digit-grouping/whitespace liberality of CPython's
`int()` never arises on `'_'`-free token chunks.) -/
def pyInt (s : String) : Option Int :=
  match s.data with
  | '-' :: rest => (parseNat rest).map (fun n => -(n : Int))
  | '+' :: rest => (parseNat rest).map (fun n => (n : Int))
  | cs => (parseNat cs).map (fun n => (n : Int))

theorem splitU_ne_nil (cs : List Char) : splitU cs ≠ [] := by
  cases cs with
  | nil => simp [splitU]
  | cons c t => simp only [splitU]; split <;> simp

/-- No chunk produced by `splitU` contains the separator `'_'`. -/
theorem splitU_no_sep (cs : List Char) :
    ∀ chunk ∈ splitU cs, '_' ∉ chunk := by
  induction cs with
  | nil =>
    intro chunk hc
    simp only [splitU, List.mem_singleton] at hc
    simp [hc]
  | cons c t ih =>
    intro chunk hc
    simp only [splitU] at hc
    by_cases hsep : c = '_'
    · rw [if_pos hsep] at hc
      rcases List.mem_cons.mp hc with hc | hc
      · simp [hc]
      · exact ih chunk hc
    · rw [if_neg hsep] at hc
      rcases List.mem_cons.mp hc with hc | hc
      · subst hc
        intro hmem
        rcases List.mem_cons.mp hmem with h1 | h1
        · exact hsep h1.symm
        · cases h : splitU t with
          | nil => exact absurd h (splitU_ne_nil t)
          | cons a b =>
            rw [h] at h1
            exact ih a (by rw [h]; exact List.mem_cons_self a b) (by simpa using h1)
      · exact ih chunk (List.mem_of_mem_tail hc)

/-- No string chunk of `pySplit` contains `'_'`. -/
theorem pySplit_no_sep (s : String) :
    ∀ part ∈ pySplit s, '_' ∉ part.data := by
  intro part hp
  simp only [pySplit, List.mem_map] at hp
  obtain ⟨cs, hcs, rfl⟩ := hp
  exact splitU_no_sep s.data cs hcs

/-- A `getPart` of a `pySplit` never yields a string containing `'_'`
(the out-of-range default `""` has none either). -/
theorem getPart_no_sep (s : String) (i : Nat) :
    '_' ∉ (getPart (pySplit s) i).data := by
  have key : ∀ (l : List String), (∀ x ∈ l, '_' ∉ x.data) → ∀ j,
      '_' ∉ (getPart l j).data := by
    intro l
    induction l with
    | nil => intro _ j; cases j <;> simp [getPart, List.getD]
    | cons a t iht =>
      intro h j
      cases j with
      | zero => simpa [getPart, List.getD] using h a (List.mem_cons_self a t)
      | succ n =>
        have := iht (fun x hx => h x (List.mem_cons_of_mem a hx)) n
        simpa [getPart, List.getD] using this
  exact key (pySplit s) (pySplit_no_sep s) i

/-! ### `database.py`: `update_event_field` and `store_rating` -/

/-- The set `ALLOWED_UPDATE_FIELDS` (`database.py`). -/
def ALLOWED_UPDATE_FIELDS : List String :=
  ["title", "description", "cost", "date", "location",
   "capacity", "hashtag", "type", "is_active"]

/-- A SQLite value supplied for an `UPDATE ... SET field = ?`.  The admin edit
conversation (`admin_events.py`, `edit_event_save_value`) validates `cost` and
`capacity` to integers and supplies text for the other fields. -/
inductive SqlVal where
  | int (n : Int)
  | text (s : String)
  deriving Repr, DecidableEq

/-- Effect of `UPDATE events SET <field> = ?` on one row, for each allow-listed
field.  SQLite columns are dynamically typed; we model the type-conforming
writes (the only ones the admin edit handler produces).  A value of the other
shape leaves the modelled typed column unchanged. -/
def applyField (field : String) (v : SqlVal) (ev : Event) : Event :=
  match field, v with
  | "title", .text s => { ev with title := s }
  | "description", .text s => { ev with description := s }
  | "cost", .int n => { ev with cost := n }
  | "date", .text s => { ev with date := s }
  | "location", .text s => { ev with location := s }
  | "capacity", .int n => { ev with capacity := n }
  | "hashtag", .text s => { ev with hashtag := s }
  | "type", .text s => { ev with type := s }
  | "is_active", .int n => { ev with isActive := n ≠ 0 }
  | _, _ => ev

/-- Model of `db.update_event_field(event_id, field, value)` (`database.py`): reject a
field outside the allow-list, reject a non-positive event id, otherwise run
`UPDATE events SET <field> = ? WHERE event_id = ?` (which touches every row with
that id and succeeds even when no row matches) and report success. -/
def updateEventField (db : DB) (eventId : Int) (field : String) (v : SqlVal) :
    Bool × DB :=
  if ¬ ALLOWED_UPDATE_FIELDS.contains field then (false, db)
  else if eventId ≤ 0 then (false, db)
  else
    (true,
     { db with
       events := db.events.map (fun ev =>
         if ev.eventId == eventId then applyField field v ev else ev) })

/-- Model of `db.store_rating(user_id, event_id, rating)` (`database.py`): reject a
rating outside `1..5`, otherwise
`INSERT ... ON CONFLICT(user_id, event_id) DO UPDATE SET rating, submitted_at`.
The `UNIQUE(user_id, event_id)` constraint makes the conflict row unique; the
map below updates every row of the pair, which coincides on tables satisfying
the constraint. -/
def storeRating (db : DB) (userId eventId : Int) (rating : Int) (now : Nat) :
    Bool × DB :=
  if ¬ (1 ≤ rating ∧ rating ≤ 5) then (false, db)
  else if db.ratings.any (fun x => x.userId == userId && x.eventId == eventId) then
    (true,
     { db with
       ratings := db.ratings.map (fun x =>
         if x.userId == userId && x.eventId == eventId then
           { x with rating := rating, submittedAt := now }
         else x) })
  else
    (true,
     { db with
       ratings := db.ratings ++ [⟨userId, eventId, rating, now⟩] })

/-! ### `handlers/user_events.py`: deactivation and registration -/

/-- Model of `deactivate_event(event_id, reason, context)` (`user_events.py`): set
`is_active = 0` and the deactivation reason on every row with this id, then
send the final participant roster (the profile lines of every registrant of the
event whose users row exists) to the operator group.  The returned list models
the roster of that final-list message. -/
def deactivateEvent (db : DB) (eventId : Int) (reason : String) :
    DB × List Int :=
  let db' : DB :=
    { db with
      events := db.events.map (fun ev =>
        if ev.eventId == eventId then
          { ev with isActive := false, deactivationReason := some reason }
        else ev) }
  let roster :=
    (db.registrations.filter (fun r => r.eventId == eventId)).filterMap
      (fun r => if userExists db r.userId then some r.userId else none)
  (db', roster)

/-- Result of a `register_<id>` tap (`register_event`, `user_events.py`). -/
inductive RegResult where
  | notMember          -- channel-membership gate failed
  | notFound           -- `not event or not user`
  | alreadyRegistered  -- a registrations row for (user, event) exists
  | eventInactive      -- `not event['is_active']`
  | capacityFull       -- capacity-limited and `current_capacity >= capacity`
  | success            -- free path completed (row inserted, capacity bumped)
  | awaitingReceipt    -- paid path: pending marker set, receipt requested
  deriving Repr, DecidableEq

/-- Model of `register_event` (`user_events.py`): the full decision sequence of a
`register_<id>` tap.  Returns the result tag, the new database, and — when the
registration filled the capacity and triggered `deactivate_event` — the roster
of the final-list message.  The capacity-full check at the end reuses the event
row fetched *before* the increment (`event['current_capacity'] + 1`). -/
def registerEvent (isMember : Bool) (db : DB) (userId eventId : Int) :
    RegResult × DB × Option (List Int) :=
  if ¬ isMember then (.notMember, db, none)
  else
    match getEvent db eventId with
    | none => (.notFound, db, none)
    | some event =>
      if ¬ userExists db userId then (.notFound, db, none)
      else if isRegistered db userId eventId then (.alreadyRegistered, db, none)
      else if ¬ event.isActive then (.eventInactive, db, none)
      else if event.type ≠ "دوره" ∧ event.capacity ≤ event.currentCapacity then
        (.capacityFull, db, none)
      else if event.cost = 0 then
        let db1 : DB :=
          { db with
            registrations := db.registrations ++ [⟨userId, eventId⟩],
            events := db.events.map (fun ev =>
              if ev.eventId == eventId then
                { ev with currentCapacity := ev.currentCapacity + 1 }
              else ev) }
        if event.type ≠ "دوره" ∧ event.capacity ≤ event.currentCapacity + 1 then
          let (db2, roster) := deactivateEvent db1 eventId "تکمیل ظرفیت"
          (.success, db2, some roster)
        else (.success, db1, none)
      else (.awaitingReceipt, db, none)

/-! ### `handlers/user_events.py`: `payment_action`

The admin tap handler for payment notices.  `query.data.split("_")` is taken
verbatim: `callback_parts[0]` of a stage-1 token `confirm_payment_<u>_<e>` is
`"confirm"`, not `"confirm_payment"`, and `callback_parts[1]` of a stage-2
token `confirm_confirm_payment_<u>_<e>` is `"confirm"`. -/

/-- The finalization marker substrings the stage-1 guard looks for in the
notice caption. -/
def FINAL_CONFIRM_MARK : String := "تأیید نهایی شد"

def FINAL_CANCEL_MARK : String := "ابطال شد"

/-- Python's `needle in haystack` substring test. -/
def hasSubstr : List Char → List Char → Bool
  | [], pat => pat.isEmpty
  | a :: t, pat => pat.isPrefixOf (a :: t) || hasSubstr t pat

def containsStr (haystack pat : String) : Bool :=
  hasSubstr haystack.data pat.data

/-- Observable outcome of one `payment_action` call (messages sent / edits
made), alongside the database returned with it. -/
inductive PayEffect where
  | adminAlert                               -- non-admin: alert, nothing else
  | messageDeleted                           -- `done`
  | noOp                                     -- fell through every branch
  | notFoundEdit                             -- caption replaced with an error
  | alreadyConfirmedNotice (newCaption : String) -- idempotency notice
  | finalConfirmed (newCaption : String)     -- stage-2 confirm executed
  | finalUnclear (newCaption : String)       -- stage-2 unclear executed
  | finalCancelled (newCaption : String)     -- stage-2 cancel executed
  | alreadyProcessedAlert                    -- stage-1 finalized-notice guard
  | stage1Swap (token : String)              -- stage-1 button swap
  | errorReply                               -- exception caught (bad int(...))
  deriving Repr, DecidableEq

/-- Model of `payment_action` (`user_events.py`).  `isAdmin` is `is_user_admin(...)`,
`data` is `query.data`, `caption` is `query.message.caption`, `adminName` is
`update.effective_user.full_name`. -/
def paymentAction (isAdmin : Bool) (data caption adminName : String) (db : DB) :
    PayEffect × DB :=
  if ¬ isAdmin then (.adminAlert, db)
  else
    let parts := pySplit data
    let action := getPart parts 0
    if action = "done" then (.messageDeleted, db)
    else if action = "confirm" ∧ 5 ≤ parts.length then
      let subAction := getPart parts 1
      match pyInt (getPart parts 3), pyInt (getPart parts 4) with
      | some userId, some eventId =>
        match getEvent db eventId with
        | none => (.notFoundEdit, db)
        | some event =>
          if ¬ userExists db userId then (.notFoundEdit, db)
          else if isRegistered db userId eventId then
            (.alreadyConfirmedNotice (caption ++ "\n\n**✅ قبلاً تأیید شده بود. **"), db)
          else if subAction = "confirm_payment" then
            let db1 : DB :=
              { db with
                registrations := db.registrations ++ [⟨userId, eventId⟩],
                payments := db.payments ++ [⟨userId, eventId, event.cost⟩],
                events := db.events.map (fun ev =>
                  if ev.eventId == eventId then
                    { ev with currentCapacity := ev.currentCapacity + 1 }
                  else ev) }
            let db2 :=
              if event.type ≠ "دوره" ∧ event.capacity ≤ event.currentCapacity + 1 then
                (deactivateEvent db1 eventId "تکمیل ظرفیت").1
              else db1
            (.finalConfirmed
              (caption ++ "\n\n**✅ توسط ادمین " ++ adminName ++ " تأیید نهایی شد.**"),
             db2)
          else if subAction = "unclear_payment" then
            (.finalUnclear
              (caption ++ "\n\n**📸 توسط ادمین " ++ adminName ++ " ناخوانا اعلام شد.**"),
             db)
          else if subAction = "cancel_payment" then
            (.finalCancelled
              (caption ++ "\n\n**🚫 توسط ادمین " ++ adminName ++ " ابطال شد.**"),
             db)
          else (.noOp, db)
      | _, _ => (.errorReply, db)
    else if parts.length = 3 ∧
        (action = "confirm_payment" ∨ action = "unclear_payment" ∨
         action = "cancel_payment") then
      match pyInt (getPart parts 1), pyInt (getPart parts 2) with
      | some userId, some eventId =>
        if containsStr caption FINAL_CONFIRM_MARK ∨
            containsStr caption FINAL_CANCEL_MARK then
          (.alreadyProcessedAlert, db)
        else
          (.stage1Swap
            ("confirm_" ++ action ++ "_" ++ toString userId ++ "_" ++
             toString eventId), db)
      | _, _ => (.errorReply, db)
    else (.noOp, db)

/-! ### `handlers/admin_events.py`: `save_event`

Needed to build reachable states: an admin creating an event inserts a row with
`current_capacity` at its schema default 0 and `is_active = 1`; the conversation
validates `capacity > 0` for a `"بازدید"` and forces `capacity = 0` for a
`"دوره"`. -/

/-- The `AUTOINCREMENT` primary key: one more than the largest id ever used. -/
def nextEventId (db : DB) : Int :=
  (db.events.foldl (fun m ev => max m ev.eventId) 0) + 1

/-- Model of `save_event` (`admin_events.py`): the `INSERT INTO events ...` on admin
confirmation.  `card` is the configured `CARD_NUMBER`. -/
def saveEvent (db : DB) (ty ti da lo : String) (cap : Int)
    (desc hashtag : String) (cost : Int) (card : String) : DB × Int :=
  let eid := nextEventId db
  ({ db with
     events := db.events ++
       [{ eventId := eid, title := ti, type := ty, date := da, location := lo,
          capacity := cap, currentCapacity := 0, description := desc,
          isActive := true, hashtag := hashtag, cost := cost,
          cardNumber := if 0 < cost then card else "",
          deactivationReason := none, feedbackSentAt := none }] }, eid)

/-! ### `handlers/admin_feedback.py`: `handle_user_rating` -/

/-- Result of a `rate_<eventId>_<1..5>` tap. -/
inductive RateResult where
  | errorReply      -- exception caught (unpacking, int() or attribute lookup failed)
  | invalidSurvey   -- no feedback dispatch recorded for the event
  | deadlinePassed  -- `datetime.now() > feedback_sent_at + window`
  | stored          -- `store_rating` invoked, thank-you message sent
  deriving Repr, DecidableEq

/-- Model of `user_id = query.effective_user.id` (`admin_feedback.py`, inside
`handle_user_rating`): `telegram.CallbackQuery` is a slotted class with no
`effective_user` attribute (that property exists only on `Update`), so this
attribute access raises `AttributeError` on every call; `none` models the
raised exception, which the handler's `except` turns into the generic error
reply. -/
def queryEffectiveUser : Option Int := none

/-- Model of `handle_user_rating` (`admin_feedback.py`), in the source's
statement order: unpack `_, event_id_str, rating_str = query.data.split("_")`
(exactly three chunks), convert both with `int(...)`, then read
`query.effective_user.id` — which always raises (see `queryEffectiveUser`), so
every run ends in the generic-error `except` branch.  The remaining statements
— the `feedback_sent_at` lookup, the deadline check and the `store_rating`
upsert — are kept as the source has them, but are dead code. -/
def handleUserRating (db : DB) (now windowDays : Nat) (data : String) :
    RateResult × DB :=
  match pySplit data with
  | [_, eventIdStr, ratingStr] =>
    match pyInt eventIdStr, pyInt ratingStr with
    | some eventId, some rating =>
      match queryEffectiveUser with
      | none => (.errorReply, db)
      | some userId =>
        match getEvent db eventId with
        | none => (.invalidSurvey, db)
        | some event =>
          match event.feedbackSentAt with
          | none => (.invalidSurvey, db)
          | some sentAt =>
            if sentAt + windowDays < now then (.deadlinePassed, db)
            else (.stored, (storeRating db userId eventId rating now).2)
    | _, _ => (.errorReply, db)
  | _ => (.errorReply, db)

/-! ### Helper lemmas -/

/-- Lookup by event id via `find?` commutes with a row transformation that keeps ids. -/
theorem find?_map_eventId (l : List Event) (f : Event → Event)
    (hf : ∀ ev, (f ev).eventId = ev.eventId) (e : Int) :
    (l.map f).find? (fun ev => ev.eventId == e)
      = (l.find? (fun ev => ev.eventId == e)).map f := by
  induction l with
  | nil => rfl
  | cons a t ih =>
    simp only [List.map_cons]
    cases hpa : (a.eventId == e) with
    | true =>
      rw [List.find?_cons_of_pos, List.find?_cons_of_pos] <;>
        simp [hf, hpa]
    | false =>
      rw [List.find?_cons_of_neg, List.find?_cons_of_neg]
      · exact ih
      · simp [hpa]
      · simp [hf, hpa]

/-- The row found by `getEvent db e` carries the id `e`. -/
theorem getEvent_eventId {db : DB} {e : Int} {event : Event}
    (h : getEvent db e = some event) : event.eventId = e := by
  have := List.find?_some h
  simpa using this

theorem getEvent_map (db : DB) (f : Event → Event)
    (hf : ∀ ev, (f ev).eventId = ev.eventId) (e : Int) :
    getEvent { db with events := db.events.map f } e
      = (getEvent db e).map f := by
  unfold getEvent
  exact find?_map_eventId db.events f hf e

/-- The capacity invariant of §3 of the spec: every capacity-limited event
(`type ≠ "دوره"`) has `current_capacity ≤ capacity`. -/
def capacityInv (db : DB) : Prop :=
  ∀ ev ∈ db.events, ev.type ≠ "دوره" → ev.currentCapacity ≤ ev.capacity

/-- The `events.event_id` PRIMARY KEY: ids are pairwise distinct. -/
def eventIdsUnique (db : DB) : Prop :=
  (db.events.map Event.eventId).Nodup

/-- The stage-2 `sub_action` comparison of `payment_action` can never succeed:
`callback_parts[1]` is a `'_'`-free chunk of the split, while the compared
literals contain `'_'`. -/
theorem getPart_ne_underscored (s lit : String) (i : Nat)
    (hlit : '_' ∈ lit.data) : getPart (pySplit s) i ≠ lit := by
  intro h
  exact getPart_no_sep s i (h ▸ hlit)

/-- The handler `payment_action` never changes the database, whatever its inputs: the only
branch that writes (`sub_action == "confirm_payment"`) is dead code, because
`sub_action = callback_parts[1]` never contains the `'_'` that the compared
literal contains. -/
theorem paymentAction_db_unchanged (isAdmin : Bool)
    (data caption adminName : String) (db : DB) :
    (paymentAction isAdmin data caption adminName db).2 = db := by
  have h1 : getPart (pySplit data) 1 ≠ "confirm_payment" :=
    getPart_ne_underscored data "confirm_payment" 1 (by decide)
  have h2 : getPart (pySplit data) 1 ≠ "unclear_payment" :=
    getPart_ne_underscored data "unclear_payment" 1 (by decide)
  have h3 : getPart (pySplit data) 1 ≠ "cancel_payment" :=
    getPart_ne_underscored data "cancel_payment" 1 (by decide)
  by_cases hA : isAdmin
  case neg => simp [paymentAction, hA]
  case pos =>
    by_cases hdone : getPart (pySplit data) 0 = "done"
    · simp [paymentAction, hA, hdone]
    · by_cases hconf : getPart (pySplit data) 0 = "confirm" ∧ 5 ≤ (pySplit data).length
      · rcases hi3 : pyInt (getPart (pySplit data) 3) with _ | u <;>
          rcases hi4 : pyInt (getPart (pySplit data) 4) with _ | e
        · simp [paymentAction, hA, hdone, hconf, hi3, hi4]
        · simp [paymentAction, hA, hdone, hconf, hi3, hi4]
        · simp [paymentAction, hA, hdone, hconf, hi3, hi4]
        · rcases hev : getEvent db e with _ | event
          · simp [paymentAction, hA, hdone, hconf, hi3, hi4, hev]
          · by_cases hue : userExists db u
            · by_cases hreg : isRegistered db u e
              · simp [paymentAction, hA, hdone, hconf, hi3, hi4, hev, hue, hreg]
              · simp [paymentAction, hA, hdone, hconf, hi3, hi4, hev, hue, hreg,
                  h1, h2, h3]
            · simp [paymentAction, hA, hdone, hconf, hi3, hi4, hev, hue]
      · by_cases hst1 : (pySplit data).length = 3 ∧
            (getPart (pySplit data) 0 = "confirm_payment" ∨
             getPart (pySplit data) 0 = "unclear_payment" ∨
             getPart (pySplit data) 0 = "cancel_payment")
        · rcases hi1 : pyInt (getPart (pySplit data) 1) with _ | u <;>
            rcases hi2 : pyInt (getPart (pySplit data) 2) with _ | e <;>
              by_cases hfin : containsStr caption FINAL_CONFIRM_MARK = true ∨
                containsStr caption FINAL_CANCEL_MARK = true <;>
                simp [paymentAction, hA, hdone, hconf, hst1, hi1, hi2, hfin]
        · simp [paymentAction, hA, hdone, hconf, hst1]

/-! ### Concrete fixtures -/

/-- A paid, active, capacity-limited event with one free seat. -/
def evPaid : Event :=
  { eventId := 2, title := "T", type := "بازدید", date := "2025-01-01",
    location := "LocABCDE", capacity := 10, currentCapacity := 0,
    description := "DescDescDesc", isActive := true, hashtag := "#T",
    cost := 500, cardNumber := "card", deactivationReason := none,
    feedbackSentAt := none }

/-- One profiled user (id 1), the paid event, and no registrations, payments or
ratings: the state right after user 1 submitted a receipt for event 2. -/
def dbPay : DB :=
  { users := [1], events := [evPaid], registrations := [], payments := [],
    ratings := [] }

/-- State `dbPay` after a completed registration of user 1 for event 2. -/
def dbPayReg : DB :=
  { dbPay with registrations := [⟨1, 2⟩] }

/-- A notice caption that ends in the finalization marker an admin audit line
would embed. -/
def captionFinalized : String :=
  "درخواست تأیید پرداخت\n\n**✅ توسط ادمین A تأیید نهایی شد.**"

/-- A free, active, capacity-limited event with seats left. -/
def evFree : Event :=
  { eventId := 3, title := "T", type := "بازدید", date := "2025-01-01",
    location := "LocABCDE", capacity := 5, currentCapacity := 0,
    description := "DescDescDesc", isActive := true, hashtag := "#T",
    cost := 0, cardNumber := "", deactivationReason := none,
    feedbackSentAt := none }

/-- One profiled user and the free event, nobody registered yet. -/
def dbFree : DB :=
  { users := [1], events := [evFree], registrations := [], payments := [],
    ratings := [] }

/-- State `dbFree` with user 1 already registered for event 3. -/
def dbFreeReg : DB :=
  { dbFree with registrations := [⟨1, 3⟩] }

/-- A free, active visit with a single seat. -/
def evCap1 : Event :=
  { eventId := 5, title := "T", type := "بازدید", date := "2025-01-01",
    location := "LocABCDE", capacity := 1, currentCapacity := 0,
    description := "DescDescDesc", isActive := true, hashtag := "#T",
    cost := 0, cardNumber := "", deactivationReason := none,
    feedbackSentAt := none }

/-- One profiled user and the one-seat event. -/
def dbCap1 : DB :=
  { users := [1], events := [evCap1], registrations := [], payments := [],
    ratings := [] }

/-- A finished event whose survey was dispatched at time 0. -/
def evSurvey : Event :=
  { eventId := 4, title := "T", type := "بازدید", date := "2025-01-01",
    location := "LocABCDE", capacity := 1, currentCapacity := 1,
    description := "DescDescDesc", isActive := false, hashtag := "#T",
    cost := 0, cardNumber := "", deactivationReason := some "برگزار شد",
    feedbackSentAt := some 0 }

/-- A database holding `evSurvey` and no ratings yet. -/
def dbSurvey : DB :=
  { users := [1], events := [evSurvey], registrations := [⟨1, 4⟩],
    payments := [], ratings := [] }

/-! ### The claims -/

/-- Claim C1 (code bug evidence).  The spec's payment two-stage protocol says a
stage-1 tap (`confirm_payment_<u>_<e>`, `unclear_payment_<u>_<e>`,
`cancel_payment_<u>_<e>`) never inserts a Registration or Payment row — which
holds — and that the stage-2 tap `confirm_confirm_payment_<u>_<e>` inserts both
with the Payment amount equal to the event cost.  In the code the stage-2 tap
inserts *nothing*: `sub_action = callback_parts[1]` of the `'_'`-split is
`"confirm"`, which matches none of the compared labels, so on a database where
user 1 exists, event 2 exists (cost 500) and no registration exists, the
canonical stage-2 token leaves the database — registrations and payments
included — completely unchanged and nothing is sent. -/
theorem payment_two_stage_taps_insert_nothing :
    paymentAction true "confirm_payment_1_2" "cap" "A" dbPay = (.noOp, dbPay) ∧
    paymentAction true "unclear_payment_1_2" "cap" "A" dbPay = (.noOp, dbPay) ∧
    paymentAction true "cancel_payment_1_2" "cap" "A" dbPay = (.noOp, dbPay) ∧
    paymentAction true "confirm_confirm_payment_1_2" "cap" "A" dbPay
      = (.noOp, dbPay) ∧
    dbPay.registrations = [] ∧ dbPay.payments = [] := by
  refine ⟨by decide, by decide, by decide, by decide, rfl, rfl⟩

/-- Claim C7 (code bug evidence).  The claim: a stage-1 tap on a notice whose
text contains a finalization marker is rejected with an "already processed"
alert.  In the code the whole stage-1 branch is dead (`len(callback_parts) == 3`
never holds for the 4-chunk stage-1 tokens), so the guarded tap silently does
nothing instead of alerting — shown on a caption that does contain the marker.
The second half of the claim (a repeated stage-2 confirmation for an already
registered pair adds no duplicate rows) does hold, via the registration
re-check; it edits the caption with the "already confirmed" note, which embeds
no second finalization marker. -/
theorem payment_finalization_guard_unreachable :
    containsStr captionFinalized FINAL_CONFIRM_MARK = true ∧
    paymentAction true "confirm_payment_1_2" captionFinalized "A" dbPay
      = (.noOp, dbPay) ∧
    paymentAction true "confirm_confirm_payment_1_2" captionFinalized "A" dbPayReg
      = (.alreadyConfirmedNotice
          (captionFinalized ++ "\n\n**✅ قبلاً تأیید شده بود. **"), dbPayReg) := by
  refine ⟨by decide, by decide, by decide⟩

/-! ### C5: the capacity invariant -/

/-- Serial trace for the C5 counterexample, step 0: one profiled user. -/
def cexDb0 : DB :=
  { users := [7], events := [], registrations := [], payments := [], ratings := [] }

/-- Step 1: an admin creates a free capacity-limited visit with one seat
(the add-event conversation validates `capacity > 0` for a `"بازدید"`). -/
def cexDb1 : DB :=
  (saveEvent cexDb0 "بازدید" "Ti" "2025-01-01" "LocABCDE" 1 "DescDescDesc"
    "#Ti" 0 "card").1

/-- Step 2: user 7 registers (free path, fills the single seat). -/
def cexDb2 : DB := (registerEvent true cexDb1 7 1).2.1

/-- Step 3: an admin edits the event's capacity down to 0 through
`update_event_field` — an allow-listed field. -/
def cexDb3 : DB := (updateEventField cexDb2 1 "capacity" (.int 0)).2

/-- The event row of `cexDb3`. -/
def cexEvFinal : Event :=
  { eventId := 1, title := "Ti", type := "بازدید", date := "2025-01-01",
    location := "LocABCDE", capacity := 0, currentCapacity := 1,
    description := "DescDescDesc", isActive := false, hashtag := "#Ti",
    cost := 0, cardNumber := "", deactivationReason := some "تکمیل ظرفیت",
    feedbackSentAt := none }

/-- Claim C5, counterexample.  The claim asserts `current_capacity ≤ capacity`
for capacity-limited events in *every* state reachable under serial processing
of user and admin actions.  The serial trace admin-creates-event (capacity 1),
user-registers (free path, `current_capacity` becomes 1), admin-edits-capacity
to 0 (`update_event_field`, an allow-listed admin action that succeeds) ends in
a state whose capacity-limited event has `current_capacity = 1 > 0 = capacity`. -/
theorem capacity_invariant_counterexample :
    (registerEvent true cexDb1 7 1).1 = .success ∧
    (updateEventField cexDb2 1 "capacity" (.int 0)).1 = true ∧
    getEvent cexDb3 1 = some cexEvFinal ∧
    cexEvFinal.type ≠ "دوره" ∧
    cexEvFinal.capacity < cexEvFinal.currentCapacity := by
  refine ⟨by decide, by decide, by decide, by decide, by decide⟩

/-- Deactivation only flips `is_active` and the reason: it preserves the
capacity invariant. -/
theorem capacityInv_deactivate (db : DB) (e : Int) (r : String)
    (h : capacityInv db) : capacityInv (deactivateEvent db e r).1 := by
  intro ev' hev'
  rcases List.mem_map.mp hev' with ⟨ev, hevmem, rfl⟩
  by_cases hid : (ev.eventId == e) = true
  · rw [if_pos hid]
    intro hty
    exact h ev hevmem (by simpa using hty)
  · rw [if_neg hid]
    exact h ev hevmem

/-- Claim C5, amended.  What does hold: every operation that increments
`current_capacity` preserves the invariant.  The free registration path
increments only behind its admission check, and `payment_action` — hence in
particular its stage-2 confirmation path — never changes the database at all
(its only increment sits in the dead `sub_action == "confirm_payment"` branch).
Id uniqueness (`event_id` is the table's PRIMARY KEY) is assumed, since the
`UPDATE ... WHERE event_id = ?` increment touches every row with the id. -/
theorem capacity_invariant_preserved_by_increment_ops (db : DB)
    (hInv : capacityInv db) (huniq : eventIdsUnique db) :
    (∀ (m : Bool) (u e : Int), capacityInv (registerEvent m db u e).2.1) ∧
    (∀ (adm : Bool) (data caption nm : String),
      capacityInv (paymentAction adm data caption nm db).2) := by
  constructor
  · intro m u e
    by_cases hm : m
    case neg => simpa [registerEvent, hm] using hInv
    case pos =>
      rcases hev : getEvent db e with _ | event
      · simpa [registerEvent, hm, hev] using hInv
      · by_cases hue : userExists db u
        case neg => simpa [registerEvent, hm, hev, hue] using hInv
        case pos =>
          by_cases hreg : isRegistered db u e
          case pos => simpa [registerEvent, hm, hev, hue, hreg] using hInv
          case neg =>
            by_cases hact : event.isActive
            case neg => simpa [registerEvent, hm, hev, hue, hreg, hact] using hInv
            case pos =>
              by_cases hfull : event.type ≠ "دوره" ∧
                  event.capacity ≤ event.currentCapacity
              case pos =>
                simpa [registerEvent, hm, hev, hue, hreg, hact, hfull] using hInv
              case neg =>
                by_cases hcost : event.cost = 0
                case neg =>
                  simpa [registerEvent, hm, hev, hue, hreg, hact, hfull, hcost]
                    using hInv
                case pos =>
                  -- free path: the increment is guarded by the admission check
                  have hkey : capacityInv
                      { db with
                        registrations := db.registrations ++ [⟨u, e⟩],
                        events := db.events.map (fun ev =>
                          if ev.eventId == e then
                            { ev with currentCapacity := ev.currentCapacity + 1 }
                          else ev) } := by
                    intro ev' hev'
                    rcases List.mem_map.mp hev' with ⟨ev, hevmem, rfl⟩
                    by_cases hid : (ev.eventId == e) = true
                    · have hevv : ev = event := by
                        have h1 : event ∈ db.events :=
                          List.mem_of_find?_eq_some hev
                        have h2 : event.eventId = e := getEvent_eventId hev
                        have h3 : ev.eventId = e := by simpa using hid
                        exact List.inj_on_of_nodup_map huniq hevmem h1
                          (by rw [h3, h2])
                      rw [if_pos hid]
                      intro hty
                      have hty' : ev.type ≠ "دوره" := by simpa using hty
                      have hlt : ev.currentCapacity < ev.capacity := by
                        rcases not_and_or.mp hfull with h | h
                        · exact absurd (hevv ▸ hty') h
                        · rw [hevv]; omega
                      simp only [Event.currentCapacity, Event.capacity]
                      omega
                    · rw [if_neg hid]
                      exact hInv ev hevmem
                  by_cases hdeact : event.type ≠ "دوره" ∧
                      event.capacity ≤ event.currentCapacity + 1
                  · simp only [registerEvent, hm, hev, hue, hreg, hact, hcost,
                      if_neg hfull, if_pos hdeact, Bool.not_eq_true, not_true,
                      not_false_eq_true, if_true, if_pos, ite_true, ite_false]
                    simp [hm, hue, hreg, hact, hcost]
                    exact capacityInv_deactivate _ e _ (by simpa using hkey)
                  · simp only [registerEvent, hm, hev, hue, hreg, hact, hcost,
                      if_neg hfull, if_neg hdeact, Bool.not_eq_true, not_true,
                      not_false_eq_true, if_true, if_pos, ite_true, ite_false]
                    simp [hm, hue, hreg, hact, hcost]
                    simpa using hkey
  · intro adm data caption nm
    rw [paymentAction_db_unchanged]
    exact hInv

/-- Witness for the amended C5 theorem at a concrete database. -/
theorem capacity_invariant_preserved_witness :
    capacityInv dbPay ∧ eventIdsUnique dbPay ∧
    capacityInv (registerEvent true dbPay 1 2).2.1 ∧
    capacityInv (paymentAction true "confirm_confirm_payment_1_2" "c" "A" dbPay).2 :=
  ⟨by unfold capacityInv; decide, by unfold eventIdsUnique; decide,
   (capacity_invariant_preserved_by_increment_ops dbPay
     (by unfold capacityInv; decide) (by unfold eventIdsUnique; decide)).1 true 1 2,
   (capacity_invariant_preserved_by_increment_ops dbPay
     (by unfold capacityInv; decide) (by unfold eventIdsUnique; decide)).2
     true "confirm_confirm_payment_1_2" "c" "A"⟩

/-! ### C2/C3/C4: the free registration path -/

/-- The database state after the free path's two writes: the inserted
registration row and the incremented `current_capacity`. -/
def freeRegDb (db : DB) (u e : Int) : DB :=
  { db with
    registrations := db.registrations ++ [⟨u, e⟩],
    events := db.events.map (fun ev =>
      if ev.eventId == e then
        { ev with currentCapacity := ev.currentCapacity + 1 }
      else ev) }

/-- Characterization of a successful free registration run. -/
theorem registerEvent_free_run (db : DB) (u e : Int) (event : Event)
    (hev : getEvent db e = some event) (hu : userExists db u = true)
    (hnr : isRegistered db u e = false) (hact : event.isActive = true)
    (hcost : event.cost = 0)
    (hfull : ¬ (event.type ≠ "دوره" ∧ event.capacity ≤ event.currentCapacity)) :
    registerEvent true db u e =
      if event.type ≠ "دوره" ∧ event.capacity ≤ event.currentCapacity + 1 then
        (.success, (deactivateEvent (freeRegDb db u e) e "تکمیل ظرفیت").1,
         some (deactivateEvent (freeRegDb db u e) e "تکمیل ظرفیت").2)
      else (.success, freeRegDb db u e, none) := by
  by_cases hdeact : event.type ≠ "دوره" ∧ event.capacity ≤ event.currentCapacity + 1
  · rw [if_pos hdeact]
    have hlt : event.currentCapacity < event.capacity := by
      rcases not_and_or.mp hfull with h | h
      · exact absurd hdeact.1 h
      · omega
    simp [registerEvent, hev, hu, hnr, hact, hcost, hfull, hdeact, freeRegDb, hlt]
  · rw [if_neg hdeact]
    simp [registerEvent, hev, hu, hnr, hact, hcost, hfull, hdeact, freeRegDb]

theorem deactivateEvent_registrations (db : DB) (e : Int) (r : String) :
    (deactivateEvent db e r).1.registrations = db.registrations := rfl

theorem deactivateEvent_users (db : DB) (e : Int) (r : String) :
    (deactivateEvent db e r).1.users = db.users := rfl

/-- Looking up the registered event after the free path's increment. -/
theorem getEvent_freeRegDb (db : DB) (u e : Int) (event : Event)
    (hev : getEvent db e = some event) :
    getEvent (freeRegDb db u e) e
      = some { event with currentCapacity := event.currentCapacity + 1 } := by
  have hid := getEvent_eventId hev
  have hfind : db.events.find? (fun ev => ev.eventId == e) = some event := hev
  unfold getEvent freeRegDb
  rw [find?_map_eventId db.events _
    (fun ev => by by_cases h : (ev.eventId == e) = true <;> simp [h]) e]
  rw [hfind]
  simp [hid]

/-- Looking up the event after deactivation. -/
theorem getEvent_deactivate (db : DB) (e : Int) (r : String) (event : Event)
    (hev : getEvent db e = some event) :
    getEvent (deactivateEvent db e r).1 e
      = some { event with isActive := false, deactivationReason := some r } := by
  have hid := getEvent_eventId hev
  have hfind : db.events.find? (fun ev => ev.eventId == e) = some event := hev
  unfold getEvent deactivateEvent
  rw [find?_map_eventId db.events _
    (fun ev => by by_cases h : (ev.eventId == e) = true <;> simp [h]) e]
  rw [hfind]
  simp [hid]

/-- Claim C2.  On an active free event the user is not yet registered for, with a
seat available when capacity-limited, the `register_<id>` tap succeeds, appends
exactly one Registration row for the pair (zero rows before, one after), and
increments the event's `current_capacity` by exactly 1. -/
theorem free_registration_effect (db : DB) (u e : Int) (event : Event)
    (hev : getEvent db e = some event) (hu : userExists db u = true)
    (hnr : isRegistered db u e = false) (hact : event.isActive = true)
    (hcost : event.cost = 0)
    (hcap : event.type = "دوره" ∨ event.currentCapacity < event.capacity) :
    (registerEvent true db u e).1 = .success ∧
    (registerEvent true db u e).2.1.registrations
      = db.registrations ++ [⟨u, e⟩] ∧
    db.registrations.countP (fun r => r.userId == u && r.eventId == e) = 0 ∧
    (registerEvent true db u e).2.1.registrations.countP
      (fun r => r.userId == u && r.eventId == e) = 1 ∧
    (getEvent (registerEvent true db u e).2.1 e).map Event.currentCapacity
      = some (event.currentCapacity + 1) := by
  have hfull : ¬ (event.type ≠ "دوره" ∧ event.capacity ≤ event.currentCapacity) := by
    rcases hcap with h | h
    · exact fun hc => hc.1 h
    · exact fun hc => by omega
  have hrun := registerEvent_free_run db u e event hev hu hnr hact hcost hfull
  have hcount0 : db.registrations.countP
      (fun r => r.userId == u && r.eventId == e) = 0 := by
    rw [List.countP_eq_zero]
    intro a ha
    have := List.any_eq_false.mp hnr a ha
    simpa using this
  have hcount1 : (db.registrations ++ [(⟨u, e⟩ : Registration)]).countP
      (fun r => r.userId == u && r.eventId == e) = 1 := by
    rw [List.countP_append, hcount0]
    simp
  by_cases hdeact : event.type ≠ "دوره" ∧ event.capacity ≤ event.currentCapacity + 1
  · rw [if_pos hdeact] at hrun
    rw [hrun]
    refine ⟨rfl, ?_, hcount0, ?_, ?_⟩
    · rw [deactivateEvent_registrations]
      rfl
    · rw [deactivateEvent_registrations]
      exact hcount1
    · rw [getEvent_deactivate _ _ _ _ (getEvent_freeRegDb db u e event hev)]
      rfl
  · rw [if_neg hdeact] at hrun
    rw [hrun]
    refine ⟨rfl, rfl, hcount0, hcount1, ?_⟩
    rw [getEvent_freeRegDb db u e event hev]
    rfl

/-- Witness for C2: user 1 registering for the free event of `dbFree`. -/
theorem free_registration_effect_witness :
    getEvent dbFree 3 = some evFree ∧ userExists dbFree 1 = true ∧
    isRegistered dbFree 1 3 = false ∧ evFree.isActive = true ∧
    evFree.cost = 0 ∧ evFree.currentCapacity < evFree.capacity ∧
    (registerEvent true dbFree 1 3).1 = .success ∧
    (registerEvent true dbFree 1 3).2.1.registrations = [⟨1, 3⟩] :=
  ⟨by decide, by decide, by decide, by decide, by decide, by decide,
   (free_registration_effect dbFree 1 3 evFree (by decide) (by decide)
     (by decide) (by decide) (by decide) (Or.inr (by decide))).1,
   by decide⟩

/-- Claim C3.  The failure checks of a registration request run in the order
already-registered, then inactive, then capacity-full (given that the event and
the user profile exist, which the handler checks first): an existing
Registration row wins over everything, inactivity is only reported for
unregistered users, capacity-full only for unregistered users of an active
capacity-limited event at capacity, and each failure leaves the database
unchanged.  Idempotence: after a successful free registration, repeating the
same `register_<id>` tap yields `AlreadyRegistered` and changes nothing. -/
theorem registration_failure_order (db : DB) (u e : Int) (event : Event)
    (hev : getEvent db e = some event) (hu : userExists db u = true) :
    (isRegistered db u e = true →
      registerEvent true db u e = (.alreadyRegistered, db, none)) ∧
    (isRegistered db u e = false → event.isActive = false →
      registerEvent true db u e = (.eventInactive, db, none)) ∧
    (isRegistered db u e = false → event.isActive = true →
      event.type ≠ "دوره" → event.capacity ≤ event.currentCapacity →
      registerEvent true db u e = (.capacityFull, db, none)) ∧
    (isRegistered db u e = false → event.isActive = true → event.cost = 0 →
      (event.type = "دوره" ∨ event.currentCapacity < event.capacity) →
      (registerEvent true (registerEvent true db u e).2.1 u e).1
          = .alreadyRegistered ∧
      (registerEvent true (registerEvent true db u e).2.1 u e).2.1
          = (registerEvent true db u e).2.1) := by
  refine ⟨?_, ?_, ?_, ?_⟩
  · intro h
    simp [registerEvent, hev, hu, h]
  · intro h hia
    simp [registerEvent, hev, hu, h, hia]
  · intro h hact hty hcap
    simp [registerEvent, hev, hu, h, hact, hty, hcap]
  · intro hnr hact hcost hcap
    have hfull : ¬ (event.type ≠ "دوره" ∧
        event.capacity ≤ event.currentCapacity) := by
      rcases hcap with hc | hc
      · exact fun hx => hx.1 hc
      · exact fun hx => by omega
    have hrun := registerEvent_free_run db u e event hev hu hnr hact hcost hfull
    by_cases hdeact : event.type ≠ "دوره" ∧
        event.capacity ≤ event.currentCapacity + 1
    · rw [hrun, if_pos hdeact]
      have hev' := getEvent_deactivate (freeRegDb db u e) e "تکمیل ظرفیت" _
        (getEvent_freeRegDb db u e event hev)
      have hu' : userExists
          (deactivateEvent (freeRegDb db u e) e "تکمیل ظرفیت").1 u = true := hu
      have hreg' : isRegistered
          (deactivateEvent (freeRegDb db u e) e "تکمیل ظرفیت").1 u e = true := by
        simp [isRegistered, deactivateEvent_registrations, freeRegDb]
      exact ⟨by simp [registerEvent, hev', hu', hreg'],
             by simp [registerEvent, hev', hu', hreg']⟩
    · rw [hrun, if_neg hdeact]
      have hev' := getEvent_freeRegDb db u e event hev
      have hu' : userExists (freeRegDb db u e) u = true := hu
      have hreg' : isRegistered (freeRegDb db u e) u e = true := by
        simp [isRegistered, freeRegDb]
      exact ⟨by simp [registerEvent, hev', hu', hreg'],
             by simp [registerEvent, hev', hu', hreg']⟩

/-- Witness for C3 (the already-registered and idempotence conjuncts at a
concrete database). -/
theorem registration_failure_order_witness :
    getEvent dbFreeReg 3 = some evFree ∧ userExists dbFreeReg 1 = true ∧
    isRegistered dbFreeReg 1 3 = true ∧
    registerEvent true dbFreeReg 1 3 = (.alreadyRegistered, dbFreeReg, none) :=
  ⟨by decide, by decide, by decide,
   (registration_failure_order dbFreeReg 1 3 evFree (by decide) (by decide)).1
     (by decide)⟩

/-- Every registration attempt against a deactivated event is rejected (as
already-registered, inactive, missing user, or missing membership) and leaves
the database unchanged. -/
theorem registerEvent_inactive_rejects (db : DB) (e : Int) (event : Event)
    (hev : getEvent db e = some event) (hia : event.isActive = false) :
    ∀ (m : Bool) (u2 : Int),
      (registerEvent m db u2 e).1 ≠ .success ∧
      (registerEvent m db u2 e).1 ≠ .awaitingReceipt ∧
      (registerEvent m db u2 e).2.1 = db := by
  intro m u2
  by_cases hm : m
  · by_cases hu2 : userExists db u2
    · by_cases hr2 : isRegistered db u2 e
      · have h : registerEvent m db u2 e = (.alreadyRegistered, db, none) := by
          simp [registerEvent, hm, hev, hu2, hr2]
        rw [h]; exact ⟨by simp, by simp, rfl⟩
      · have h : registerEvent m db u2 e = (.eventInactive, db, none) := by
          simp [registerEvent, hm, hev, hu2, hr2, hia]
        rw [h]; exact ⟨by simp, by simp, rfl⟩
    · have h : registerEvent m db u2 e = (.notFound, db, none) := by
        simp [registerEvent, hm, hev, hu2]
      rw [h]; exact ⟨by simp, by simp, rfl⟩
  · have h : registerEvent m db u2 e = (.notMember, db, none) := by
      simp [registerEvent, hm]
    rw [h]; exact ⟨by simp, by simp, rfl⟩

/-- Claim C4.  On a capacity-limited event with `capacity = 1` and
`current_capacity = 0`, one successful free registration deactivates the event
with the capacity-reached reason (`"تکمیل ظرفیت"`), the roster of the final-list
message includes the capacity-filling registrant, and every later registration
attempt for the event is rejected without touching the database. -/
theorem capacity_boundary (db : DB) (u e : Int) (event : Event)
    (hev : getEvent db e = some event) (hu : userExists db u = true)
    (hnr : isRegistered db u e = false) (hact : event.isActive = true)
    (hcost : event.cost = 0) (hty : event.type ≠ "دوره")
    (hcap1 : event.capacity = 1) (hcur0 : event.currentCapacity = 0) :
    (registerEvent true db u e).1 = .success ∧
    (getEvent (registerEvent true db u e).2.1 e).map Event.isActive
      = some false ∧
    (getEvent (registerEvent true db u e).2.1 e).map Event.deactivationReason
      = some (some "تکمیل ظرفیت") ∧
    (∃ roster, (registerEvent true db u e).2.2 = some roster ∧ u ∈ roster) ∧
    (∀ (m : Bool) (u2 : Int),
      (registerEvent m (registerEvent true db u e).2.1 u2 e).1 ≠ .success ∧
      (registerEvent m (registerEvent true db u e).2.1 u2 e).1 ≠ .awaitingReceipt ∧
      (registerEvent m (registerEvent true db u e).2.1 u2 e).2.1
        = (registerEvent true db u e).2.1) := by
  have hfull : ¬ (event.type ≠ "دوره" ∧
      event.capacity ≤ event.currentCapacity) := by
    intro hx
    rw [hcap1, hcur0] at hx
    exact absurd hx.2 (by norm_num)
  have hdeact : event.type ≠ "دوره" ∧
      event.capacity ≤ event.currentCapacity + 1 := ⟨hty, by omega⟩
  have hrun := registerEvent_free_run db u e event hev hu hnr hact hcost hfull
  rw [if_pos hdeact] at hrun
  rw [hrun]
  have hev' := getEvent_deactivate (freeRegDb db u e) e "تکمیل ظرفیت" _
    (getEvent_freeRegDb db u e event hev)
  refine ⟨rfl, ?_, ?_, ?_, ?_⟩
  · show (getEvent (deactivateEvent (freeRegDb db u e) e "تکمیل ظرفیت").1 e).map
      Event.isActive = some false
    rw [hev']
    rfl
  · show (getEvent (deactivateEvent (freeRegDb db u e) e "تکمیل ظرفیت").1 e).map
      Event.deactivationReason = some (some "تکمیل ظرفیت")
    rw [hev']
    rfl
  · refine ⟨(deactivateEvent (freeRegDb db u e) e "تکمیل ظرفیت").2, rfl, ?_⟩
    show u ∈ ((freeRegDb db u e).registrations.filter
        (fun r => r.eventId == e)).filterMap
      (fun r => if userExists (freeRegDb db u e) r.userId then some r.userId
                else none)
    refine List.mem_filterMap.mpr ⟨⟨u, e⟩, ?_, ?_⟩
    · refine List.mem_filter.mpr ⟨?_, by simp⟩
      exact List.mem_append_right _ (by simp [freeRegDb])
    · have hu'' : userExists (freeRegDb db u e) u = true := hu
      rw [hu'']
      simp
  · intro m u2
    exact registerEvent_inactive_rejects _ e _ hev' rfl m u2

/-- Witness for C4: the one-seat event of `dbCap1`. -/
theorem capacity_boundary_witness :
    getEvent dbCap1 5 = some evCap1 ∧ userExists dbCap1 1 = true ∧
    isRegistered dbCap1 1 5 = false ∧ evCap1.isActive = true ∧
    evCap1.cost = 0 ∧ evCap1.type ≠ "دوره" ∧ evCap1.capacity = 1 ∧
    evCap1.currentCapacity = 0 ∧
    (getEvent (registerEvent true dbCap1 1 5).2.1 5).map Event.isActive
      = some false :=
  ⟨by decide, by decide, by decide, by decide, by decide, by decide, by decide,
   by decide,
   (capacity_boundary dbCap1 1 5 evCap1 (by decide) (by decide) (by decide)
     (by decide) (by decide) (by decide) (by decide) (by decide)).2.1⟩

/-- Claim C6.  The function update_event_field rejects any field outside the allow-list and
leaves the events table (indeed the whole database) unchanged, so no column
outside `{title, description, cost, date, location, capacity, hashtag, type,
is_active}` can ever be written through this operation. -/
theorem update_event_field_allowlist (db : DB) (eventId : Int) (field : String)
    (v : SqlVal) (hf : ALLOWED_UPDATE_FIELDS.contains field = false) :
    updateEventField db eventId field v = (false, db) := by
  unfold updateEventField
  rw [hf]
  simp

/-- Witness: updating the non-allow-listed column `current_capacity` is
rejected. -/
theorem update_event_field_allowlist_witness :
    ALLOWED_UPDATE_FIELDS.contains "current_capacity" = false ∧
    updateEventField dbPay 2 "current_capacity" (.int 0) = (false, dbPay) :=
  ⟨by decide, update_event_field_allowlist dbPay 2 "current_capacity" (.int 0)
    (by decide)⟩

/-- Claim C10.  The function store_rating rejects every rating outside `1..5` and leaves the
`event_ratings` table (the whole database) unchanged, even though the rating
buttons only offer 1–5. -/
theorem store_rating_range_guard (db : DB) (u e r : Int) (t : Nat)
    (hr : r < 1 ∨ 5 < r) :
    storeRating db u e r t = (false, db) := by
  have h : ¬ (1 ≤ r ∧ r ≤ 5) := by omega
  simp [storeRating, h]

/-- Witness: rating 6 is rejected. -/
theorem store_rating_range_guard_witness :
    ((6 : Int) < 1 ∨ (5 : Int) < 6) ∧
    storeRating dbPay 1 2 6 0 = (false, dbPay) :=
  ⟨Or.inr (by decide), store_rating_range_guard dbPay 1 2 6 0 (Or.inr (by decide))⟩

/-! ### C8: rating upsert -/

/-- Number of `event_ratings` rows for a (user, event) pair. -/
def pairCountR (rs : List RatingRow) (u e : Int) : Nat :=
  rs.countP (fun x => x.userId == u && x.eventId == e)

/-- The `UNIQUE(user_id, event_id)` constraint of `event_ratings`. -/
def ratingsUnique (rs : List RatingRow) : Prop :=
  ∀ u e : Int, pairCountR rs u e ≤ 1

/-- The conflict-update of `store_rating` changes no pair counts. -/
theorem pairCountR_map_update (rs : List RatingRow) (u e r : Int) (t : Nat)
    (u0 e0 : Int) :
    pairCountR (rs.map (fun x =>
      if x.userId == u && x.eventId == e then
        { x with rating := r, submittedAt := t }
      else x)) u0 e0 = pairCountR rs u0 e0 := by
  unfold pairCountR
  induction rs with
  | nil => rfl
  | cons a tl ih =>
    simp only [List.map_cons, List.countP_cons]
    rw [ih]
    congr 1
    by_cases hpa : (a.userId == u && a.eventId == e) = true
    · rw [if_pos hpa]
    · rw [if_neg hpa]

theorem pairCountR_pos_of_any (rs : List RatingRow) (u e : Int)
    (h : rs.any (fun x => x.userId == u && x.eventId == e) = true) :
    1 ≤ pairCountR rs u e := by
  rcases List.any_eq_true.mp h with ⟨x, hx, hpx⟩
  unfold pairCountR
  exact List.countP_pos_iff.mpr ⟨x, hx, hpx⟩

/-- The in-range conflict branch of `store_rating` as a ratings-table
equation. -/
theorem storeRating_ratings_update (dbx : DB) (u e r : Int) (t : Nat)
    (hv : 1 ≤ r ∧ r ≤ 5)
    (hex : dbx.ratings.any (fun x => x.userId == u && x.eventId == e) = true) :
    (storeRating dbx u e r t).2.ratings
      = dbx.ratings.map (fun x =>
          if x.userId == u && x.eventId == e then
            { x with rating := r, submittedAt := t }
          else x) := by
  simp [storeRating, hv, hex]

theorem pairCountR_zero_of_any_false (rs : List RatingRow) (u e : Int)
    (h : rs.any (fun x => x.userId == u && x.eventId == e) = false) :
    pairCountR rs u e = 0 :=
  List.countP_eq_zero.mpr fun a ha => by
    simpa using List.any_eq_false.mp h a ha

/-- Claim C8.  The function store_rating is an upsert keyed by (user, event): it preserves
the at-most-one-row-per-pair invariant, and submitting rating `r1` then `r2`
(both in range) for the same pair leaves exactly one row for the pair, whose
value is `r2` — the later submission overwrites the earlier one. -/
theorem rating_upsert_semantics (db : DB) (u e r1 r2 : Int) (t1 t2 : Nat)
    (huniq : ratingsUnique db.ratings)
    (hr1 : 1 ≤ r1 ∧ r1 ≤ 5) (hr2 : 1 ≤ r2 ∧ r2 ≤ 5) :
    (∀ (dbx : DB), ratingsUnique dbx.ratings → ∀ (u0 e0 r0 : Int) (t0 : Nat),
        ratingsUnique (storeRating dbx u0 e0 r0 t0).2.ratings) ∧
    pairCountR
      ((storeRating (storeRating db u e r1 t1).2 u e r2 t2).2.ratings) u e = 1 ∧
    (∀ x ∈ (storeRating (storeRating db u e r1 t1).2 u e r2 t2).2.ratings,
        x.userId = u → x.eventId = e → x.rating = r2) := by
  have hpres : ∀ (dbx : DB), ratingsUnique dbx.ratings →
      ∀ (u0 e0 r0 : Int) (t0 : Nat),
      ratingsUnique (storeRating dbx u0 e0 r0 t0).2.ratings := by
    intro dbx hun u0 e0 r0 t0 u1 e1
    by_cases hv : 1 ≤ r0 ∧ r0 ≤ 5
    · by_cases hex : dbx.ratings.any
          (fun x => x.userId == u0 && x.eventId == e0) = true
      · have hform : (storeRating dbx u0 e0 r0 t0).2.ratings
            = dbx.ratings.map (fun x =>
                if x.userId == u0 && x.eventId == e0 then
                  { x with rating := r0, submittedAt := t0 }
                else x) := by
          simp [storeRating, hv, hex]
        rw [hform, pairCountR_map_update]
        exact hun u1 e1
      · have hform : (storeRating dbx u0 e0 r0 t0).2.ratings
            = dbx.ratings ++ [⟨u0, e0, r0, t0⟩] := by
          simp [storeRating, hv, hex]
        rw [hform]
        unfold pairCountR
        rw [List.countP_append]
        by_cases hpair : u1 = u0 ∧ e1 = e0
        · obtain ⟨h1, h2⟩ := hpair
          subst h1; subst h2
          have h0 := pairCountR_zero_of_any_false dbx.ratings u1 e1
            (by simpa using hex)
          unfold pairCountR at h0
          rw [h0]
          simp
        · have hpred : (([⟨u0, e0, r0, t0⟩] : List RatingRow)).countP
              (fun x => x.userId == u1 && x.eventId == e1) = 0 := by
            have hne : ¬ (u0 = u1 ∧ e0 = e1) :=
              fun ⟨ha, hb⟩ => hpair ⟨ha.symm, hb.symm⟩
            rcases not_and_or.mp hne with h | h <;> simp [h]
          rw [hpred, Nat.add_zero]
          exact hun u1 e1
    · have hform : (storeRating dbx u0 e0 r0 t0).2.ratings = dbx.ratings := by
        simp [storeRating, hv]
      rw [hform]
      exact hun u1 e1
  have huniq1 : ratingsUnique (storeRating db u e r1 t1).2.ratings :=
    hpres db huniq u e r1 t1
  have hone : pairCountR (storeRating db u e r1 t1).2.ratings u e = 1 := by
    by_cases hex : db.ratings.any
        (fun x => x.userId == u && x.eventId == e) = true
    · have hform : (storeRating db u e r1 t1).2.ratings
          = db.ratings.map (fun x =>
              if x.userId == u && x.eventId == e then
                { x with rating := r1, submittedAt := t1 }
              else x) := by
        simp [storeRating, hr1, hex]
      rw [hform, pairCountR_map_update]
      have hle := huniq u e
      have hge := pairCountR_pos_of_any db.ratings u e hex
      omega
    · have hform : (storeRating db u e r1 t1).2.ratings
          = db.ratings ++ [⟨u, e, r1, t1⟩] := by
        simp [storeRating, hr1, hex]
      rw [hform]
      unfold pairCountR
      rw [List.countP_append]
      have h0 := pairCountR_zero_of_any_false db.ratings u e (by simpa using hex)
      unfold pairCountR at h0
      rw [h0]
      simp
  have hany1 : (storeRating db u e r1 t1).2.ratings.any
      (fun x => x.userId == u && x.eventId == e) = true := by
    by_contra hno
    have h0 := pairCountR_zero_of_any_false (storeRating db u e r1 t1).2.ratings
      u e (by simpa using hno)
    omega
  have hform2 : (storeRating (storeRating db u e r1 t1).2 u e r2 t2).2.ratings
      = (storeRating db u e r1 t1).2.ratings.map (fun x =>
          if x.userId == u && x.eventId == e then
            { x with rating := r2, submittedAt := t2 }
          else x) :=
    storeRating_ratings_update (storeRating db u e r1 t1).2 u e r2 t2 hr2 hany1
  refine ⟨hpres, ?_, ?_⟩
  · rw [hform2, pairCountR_map_update]
    exact hone
  · rw [hform2]
    intro x hx hxu hxe
    rcases List.mem_map.mp hx with ⟨y, hy, rfl⟩
    by_cases hpy : (y.userId == u && y.eventId == e) = true
    · simp only [if_pos hpy]
    · simp only [if_neg hpy] at hxu hxe ⊢
      exact absurd (by simp [hxu, hxe]) hpy

/-- Witness for C8: ratings 3 then 5 from user 1 for event 4 on an empty
ratings table leave exactly one row for the pair. -/
theorem rating_upsert_semantics_witness :
    ratingsUnique dbSurvey.ratings ∧
    pairCountR
      ((storeRating (storeRating dbSurvey 1 4 3 1).2 1 4 5 2).2.ratings) 1 4
      = 1 :=
  ⟨fun u e => by simp [pairCountR, dbSurvey],
   (rating_upsert_semantics dbSurvey 1 4 3 5 1 2
     (fun u e => by simp [pairCountR, dbSurvey]) (by decide) (by decide)).2.1⟩

/-- Claim C9 (code bug evidence).  The claim: a rating submitted after
`feedback_sent_at + window_days` is rejected and no EventRating row is written
or updated.  In the code, `user_id = query.effective_user.id` runs *before*
the deadline check and raises `AttributeError` on every call
(`telegram.CallbackQuery` has no `effective_user` attribute), so every tap —
late or not — lands in the generic-error `except` branch: the deadline
rejection the claim describes is never produced, and no rating is ever stored,
vacuously rather than through the deadline logic.  Shown at a concrete late
tap (`rate_4_5` at time 10 on an event dispatched at 0 with a 3-day window),
together with the general fact that no input can reach the `deadlinePassed` or
`stored` outcomes or change the database. -/
theorem rating_deadline_check_unreachable :
    (getEvent dbSurvey 4 = some evSurvey ∧
     evSurvey.feedbackSentAt = some 0 ∧ 0 + 3 < 10 ∧
     handleUserRating dbSurvey 10 3 "rate_4_5" = (.errorReply, dbSurvey)) ∧
    (∀ (db : DB) (now w : Nat) (data : String),
      (handleUserRating db now w data).1 ≠ .deadlinePassed ∧
      (handleUserRating db now w data).1 ≠ .stored ∧
      (handleUserRating db now w data).2 = db) := by
  refine ⟨⟨by decide, by decide, by decide, by decide⟩, ?_⟩
  intro db now w data
  unfold handleUserRating
  split
  · split
    · simp [queryEffectiveUser]
    · simp
  · simp

end Chembot
